import Mathlib

/-!
# Verification of the monod document-state core

The repository's document reducer, `Document` entity, checkbox-toggle
algorithm and dispatch orchestration (module `app/modules/documents` and
`app/Document`) are exercised by the test suite under
`src/app/modules/__tests__/documents-test.js` but their implementation files
are not part of the source snapshot.  All definitions below are therefore
modelled from the specification (and pinned down, where the spec is
ambiguous, by the behaviour the repository's own tests demand), and the
claims are settled against this model.
-/

namespace Monod

/-! ## Characters and lines -/

/-- Modelled from the spec: the leading-whitespace characters stripped from a
line before matching the task-item pattern (spaces and tabs). -/
def isWS (c : Char) : Bool := c = ' ' || c = '\t'

/-- Modelled from the spec: the three admissible checkbox marker characters
`' '`, `'x'`, `'X'`. -/
def isMarker (c : Char) : Bool := c = ' ' || c = 'x' || c = 'X'

/-- Modelled from the spec: flipping one marker character — the checked
states `'x'` and `'X'` both map to unchecked `' '`; unchecked `' '` maps to
the lowercase checked `'x'`. -/
def toggleChar (c : Char) : Char := if c = ' ' then 'x' else ' '

/-- A task-item line rebuilt from its indentation, marker and remainder:
`ws ++ "- [" ++ c ++ "] " ++ tail`. -/
def taskLine (ws : List Char) (c : Char) (tail : List Char) : List Char :=
  ws ++ '-' :: ' ' :: '[' :: c :: ']' :: ' ' :: tail

/-- Modelled from the spec: a line matches the task-item pattern when, after
stripping leading whitespace, it reads `- [c] rest` with `c` one of `' '`,
`'x'`, `'X'`.  Returns the stripped indentation, the marker and the rest of
the line. -/
def parseTask (line : List Char) : Option (List Char × Char × List Char) :=
  match line.dropWhile isWS with
  | '-' :: ' ' :: '[' :: c :: ']' :: ' ' :: rest =>
      if isMarker c then some (line.takeWhile isWS, c, rest) else none
  | _ => none

/-- Toggle the marker of a line when it matches the task-item pattern;
leave any other line untouched. -/
def toggleLine (line : List Char) : List Char :=
  match parseTask line with
  | some (ws, c, tail) => taskLine ws (toggleChar c) tail
  | none => line

/-! ## Splitting text into lines -/

/-- Split a character list on `'\n'` (the line separators are removed;
splitting always yields at least one, possibly empty, line). -/
def splitNL : List Char → List (List Char)
  | [] => [[]]
  | c :: cs =>
      if c = '\n' then [] :: splitNL cs
      else
        match splitNL cs with
        | l :: ls => (c :: l) :: ls
        | [] => [[c]]

/-- Rejoin lines with `'\n'`. -/
def joinNL : List (List Char) → List Char
  | [] => []
  | [l] => l
  | l :: ls => l ++ '\n' :: joinNL ls

/-! ## The toggle scan -/

/-- Modelled from the spec: scan the lines keeping a running counter that
starts at `counter`; on a line matching the task-item pattern, toggle it and
stop when the counter equals the target `index`, otherwise increment the
counter; non-matching lines pass through and leave the counter alone. -/
def toggleLinesFrom (index : Nat) (counter : Nat) : List (List Char) → List (List Char)
  | [] => []
  | l :: ls =>
      match parseTask l with
      | some _ =>
          if counter = index then toggleLine l :: ls
          else l :: toggleLinesFrom index (counter + 1) ls
      | none => l :: toggleLinesFrom index counter ls

/-- Countdown formulation of the scan: toggle the line at which the number
of previously seen matching lines equals the remaining index. -/
def toggleGo : Nat → List (List Char) → List (List Char)
  | _, [] => []
  | i, l :: ls =>
      match parseTask l with
      | some _ =>
          if i = 0 then toggleLine l :: ls
          else l :: toggleGo (i - 1) ls
      | none => l :: toggleGo i ls

/-- The marker characters of the matching lines, in top-to-bottom order. -/
def taskMarkersLines : List (List Char) → List Char
  | [] => []
  | l :: ls =>
      match parseTask l with
      | some (_, c, _) => c :: taskMarkersLines ls
      | none => taskMarkersLines ls

/-- Modelled from the spec: the whole checkbox-toggle algorithm — split the
content on newlines, toggle the `index`-th task-item line (counting from 0 in
document order), rejoin. -/
def toggleTaskListItem (content : String) (index : Nat) : String :=
  String.mk (joinNL (toggleLinesFrom index 0 (splitNL content.data)))

/-- The marker characters of a content's task-item lines, in document
order. -/
def taskMarkers (content : String) : List Char :=
  taskMarkersLines (splitNL content.data)

/-! ## The Document entity and the state slice -/

/-- Modelled from the spec: the `Document` record with fields `uuid`,
`content`, `template`, `last_modified_locally`.  JavaScript object identity
(snapshot references) is observable to consumers, so it is modelled
explicitly by the extra `ref` field: whenever the reducer builds a new
`Document` value it assigns a reference distinct from the current one
(allocation freshness, modelled as the successor of the current
reference). -/
structure Doc where
  ref : Nat
  uuid : Option String
  content : String
  template : String
  last_modified_locally : Option Nat
deriving Repr, DecidableEq

/-- Modelled from the spec: the default content of a "new empty Document"
installed by load-default. -/
def defaultContent : String := ""

/-- Modelled from the spec: the default `Document` (never persisted
remotely, default content and template, no local-modification marker). -/
def defaultDocument : Doc :=
  { ref := 0, uuid := none, content := defaultContent, template := ""
    last_modified_locally := none }

/-- Modelled from the spec: the documents state slice with fields
`current`, `loaded`, `secret`, `forceUpdate`. -/
structure DocState where
  current : Doc
  loaded : Bool
  secret : Option String
  forceUpdate : Bool
deriving Repr, DecidableEq

/-- Modelled from the spec: the initial state
`loaded=false, forceUpdate=false, secret=null, current=<default Document>`. -/
def initialState : DocState :=
  { current := defaultDocument, loaded := false, secret := none
    forceUpdate := false }

/-! ## Actions -/

/-- The action vocabulary flowing through the dispatch store.  The first
seven constructors are the action kinds the document reducer recognizes;
`localPersist`, `notify`, `synchronize` and `unknown` are actions addressed
to other subsystems (or unrecognized), which the reducer passes through. -/
inductive Action where
  | loadDefault : Action
  | loadSuccess (document : Doc) (secret : String) : Action
  | updateContent (content : String) : Action
  | updateTemplate (template : String) : Action
  | toggleTaskListItem (index : Nat) : Action
  | forceUpdateCurrentDocument (document : Doc) : Action
  | updateCurrentDocument (document : Doc) : Action
  | localPersist : Action
  | notify (level : String) (message : String) : Action
  | synchronize : Action
  | unknown : Action
deriving Repr, DecidableEq

/-- The action kinds the document reducer recognizes. -/
def Action.recognized : Action → Bool
  | .loadDefault => true
  | .loadSuccess _ _ => true
  | .updateContent _ => true
  | .updateTemplate _ => true
  | .toggleTaskListItem _ => true
  | .forceUpdateCurrentDocument _ => true
  | .updateCurrentDocument _ => true
  | _ => false

/-- Whether an action is the force-update-current-document action. -/
def Action.isForceUpdate : Action → Bool
  | .forceUpdateCurrentDocument _ => true
  | _ => false

/-! ## The reducer -/

/-- Modelled from the spec (and from the repository's tests): replacing a
document field produces a new `Document` reference; the
`last_modified_locally` marker is set to `now` exactly when the resulting
document's content differs from the default content (so updating the
template of the still-default document does not mark it dirty, matching the
test "should return a new document without local modifications when updating
the template of the default one"). -/
def setDocContent (d : Doc) (content : String) (now : Nat) : Doc :=
  let updated : Doc := { d with content := content, ref := d.ref + 1 }
  if updated.content = defaultContent then updated
  else { updated with last_modified_locally := some now }

/-- Modelled from the spec: template counterpart of `setDocContent` (the
dirty-marker rule still looks at the resulting content). -/
def setDocTemplate (d : Doc) (template : String) (now : Nat) : Doc :=
  let updated : Doc := { d with template := template, ref := d.ref + 1 }
  if updated.content = defaultContent then updated
  else { updated with last_modified_locally := some now }

/-- Modelled from the spec: the pure document reducer
`(state, action) -> newState`.  `now` is the current timestamp used for the
local-modification marker.  Unrecognized actions pass the state through
unchanged ("an action it does not recognize is a no-op returning the
unchanged state reference"). -/
def reducer (state : DocState) (action : Action) (now : Nat) : DocState :=
  match action with
  | .loadDefault =>
      { state with
          current := { defaultDocument with ref := state.current.ref + 1 }
          loaded := true, forceUpdate := false }
  | .loadSuccess document secret =>
      { state with
          current := document, secret := some secret, loaded := true
          forceUpdate := false }
  | .updateContent content =>
      { state with
          current := setDocContent state.current content now
          forceUpdate := false }
  | .updateTemplate template =>
      { state with
          current := setDocTemplate state.current template now
          forceUpdate := false }
  | .toggleTaskListItem index =>
      let newContent := toggleTaskListItem state.current.content index
      if newContent = state.current.content then
        { state with forceUpdate := false }
      else
        { state with
            current := { state.current with
                           content := newContent
                           last_modified_locally := some now
                           ref := state.current.ref + 1 }
            forceUpdate := false }
  | .forceUpdateCurrentDocument document =>
      { state with current := document, forceUpdate := true }
  | .updateCurrentDocument document =>
      { state with current := document, forceUpdate := false }
  | _ => state

/-! ## Dispatch orchestration -/

/-- Modelled from the spec: `updateContent(content)` inspects the current
state: when `secret` is null (a new, never-synchronized document) it emits a
single load-success-style full replacement carrying a fresh `Document` with
the requested content baked in (the generated secret is abstracted as the
`freshSecret` argument); otherwise it emits the incremental update-content
action followed by the local-persist signal. -/
def updateContentDispatch (st : DocState) (content : String)
    (freshSecret : String) : List Action :=
  if st.secret = none then
    [Action.loadSuccess
      { defaultDocument with
          content := content, template := st.current.template
          ref := st.current.ref + 1 }
      freshSecret]
  else
    [Action.updateContent content, Action.localPersist]

/-- Modelled from the spec: `updateTemplate(template)`, the template
counterpart of `updateContentDispatch`. -/
def updateTemplateDispatch (st : DocState) (template : String)
    (freshSecret : String) : List Action :=
  if st.secret = none then
    [Action.loadSuccess
      { defaultDocument with
          content := st.current.content, template := template
          ref := st.current.ref + 1 }
      freshSecret]
  else
    [Action.updateTemplate template, Action.localPersist]

/-- Modelled from the spec: `notFound()` emits an error notification then
load-default. -/
def notFound : List Action :=
  [Action.notify "error" "document not found", Action.loadDefault]

/-- Modelled from the spec: `decryptionFailed()` emits an error notification
then load-default. -/
def decryptionFailed : List Action :=
  [Action.notify "error" "decryption failed", Action.loadDefault]

/-- Modelled from the spec: `serverUnreachable()` emits an error
notification then load-default. -/
def serverUnreachable : List Action :=
  [Action.notify "error" "server unreachable", Action.loadDefault]

/-! ## Lemmas about task-item lines -/

theorem dropWhile_taskLine (ws : List Char) (c : Char) (tail : List Char)
    (hws : ∀ x ∈ ws, isWS x = true) :
    (taskLine ws c tail).dropWhile isWS = '-' :: ' ' :: '[' :: c :: ']' :: ' ' :: tail := by
  induction ws with
  | nil => simp [taskLine, List.dropWhile_cons, isWS]
  | cons w ws ih =>
      have hw : isWS w = true := hws w (by simp)
      have hrest : ∀ x ∈ ws, isWS x = true := fun x hx => hws x (by simp [hx])
      simpa [taskLine, List.dropWhile_cons, hw] using ih hrest

theorem takeWhile_taskLine (ws : List Char) (c : Char) (tail : List Char)
    (hws : ∀ x ∈ ws, isWS x = true) :
    (taskLine ws c tail).takeWhile isWS = ws := by
  induction ws with
  | nil => simp [taskLine, List.takeWhile_cons, isWS]
  | cons w ws ih =>
      have hw : isWS w = true := hws w (by simp)
      have hrest : ∀ x ∈ ws, isWS x = true := fun x hx => hws x (by simp [hx])
      simpa [taskLine, List.takeWhile_cons, hw] using ih hrest

theorem parseTask_taskLine (ws : List Char) (c : Char) (tail : List Char)
    (hws : ∀ x ∈ ws, isWS x = true) (hc : isMarker c = true) :
    parseTask (taskLine ws c tail) = some (ws, c, tail) := by
  unfold parseTask
  rw [dropWhile_taskLine ws c tail hws]
  simp [hc, takeWhile_taskLine ws c tail hws]

theorem parseTask_inv {line ws tail : List Char} {c : Char}
    (h : parseTask line = some (ws, c, tail)) :
    line = taskLine ws c tail ∧ (∀ x ∈ ws, isWS x = true) ∧ isMarker c = true := by
  unfold parseTask at h
  split at h
  case _ c' rest heq =>
    split at h
    case isTrue hc =>
      obtain ⟨hws, hc', htail⟩ := by
        simpa using h
      subst hws; subst hc'; subst htail
      refine ⟨?_, ?_, hc⟩
      · have := List.takeWhile_append_dropWhile (p := isWS) (l := line)
        rw [heq] at this
        exact (by rw [taskLine, this])
      · intro x hx
        exact List.mem_takeWhile_imp hx
    case isFalse hc => exact absurd h (by simp)
  case _ => exact absurd h (by simp)

theorem isMarker_toggleChar (c : Char) : isMarker (toggleChar c) = true := by
  unfold toggleChar
  split <;> simp [isMarker]

theorem toggleLine_eq {line ws tail : List Char} {c : Char}
    (h : parseTask line = some (ws, c, tail)) :
    toggleLine line = taskLine ws (toggleChar c) tail := by
  unfold toggleLine
  rw [h]

theorem parseTask_toggleLine {line ws tail : List Char} {c : Char}
    (h : parseTask line = some (ws, c, tail)) :
    parseTask (toggleLine line) = some (ws, toggleChar c, tail) := by
  obtain ⟨-, hws, -⟩ := parseTask_inv h
  rw [toggleLine_eq h]
  exact parseTask_taskLine ws (toggleChar c) tail hws (isMarker_toggleChar c)

theorem toggleChar_toggleChar {c : Char} (hm : isMarker c = true)
    (hX : c ≠ 'X') : toggleChar (toggleChar c) = c := by
  have : c = ' ' ∨ c = 'x' ∨ c = 'X' := by
    simpa [isMarker, or_assoc] using hm
  rcases this with h | h | h
  · subst h; rfl
  · subst h; rfl
  · exact absurd h hX

/-! ## The counter scan agrees with the countdown scan -/

theorem toggleLinesFrom_eq_go (ls : List (List Char)) (index : Nat) :
    ∀ counter, toggleLinesFrom index counter ls =
      if counter ≤ index then toggleGo (index - counter) ls else ls := by
  induction ls with
  | nil => intro counter; simp [toggleLinesFrom, toggleGo]
  | cons l ls ih =>
      intro counter
      cases hp : parseTask l with
      | some v =>
          by_cases hci : counter = index
          · subst hci
            simp [toggleLinesFrom, toggleGo, hp]
          · rw [toggleLinesFrom, hp]
            simp only [hci, if_false]
            rw [ih (counter + 1)]
            by_cases hlt : counter < index
            · have h1 : counter + 1 ≤ index := hlt
              have h2 : counter ≤ index := Nat.le_of_lt hlt
              have h3 : index - counter ≠ 0 := by omega
              have h4 : index - (counter + 1) = index - counter - 1 := by omega
              simp only [h1, if_pos, h2, h4]
              rw [toggleGo, hp]
              simp only [h3, if_false]
            · have h1 : ¬ counter + 1 ≤ index := by omega
              have h2 : ¬ counter ≤ index := by omega
              simp [h1, h2]
      | none =>
          rw [toggleLinesFrom, hp, ih counter]
          by_cases hle : counter ≤ index
          · simp only [hle, if_pos]
            rw [toggleGo, hp]
          · simp [hle]

theorem toggleLinesFrom_zero (ls : List (List Char)) (index : Nat) :
    toggleLinesFrom index 0 ls = toggleGo index ls := by
  simpa using toggleLinesFrom_eq_go ls index 0

theorem toggleTaskListItem_eq_go (content : String) (index : Nat) :
    toggleTaskListItem content index =
      String.mk (joinNL (toggleGo index (splitNL content.data))) := by
  rw [toggleTaskListItem, toggleLinesFrom_zero]

/-! ## Splitting and joining lines round-trip -/

theorem splitNL_ne_nil (cs : List Char) : splitNL cs ≠ [] := by
  cases cs with
  | nil => simp [splitNL]
  | cons c cs =>
      rw [splitNL]
      split
      · simp
      · split <;> simp

theorem joinNL_cons_ne_nil (l : List Char) (ls : List (List Char))
    (h : ls ≠ []) : joinNL (l :: ls) = l ++ '\n' :: joinNL ls := by
  cases ls with
  | nil => exact absurd rfl h
  | cons l' ls' => rfl

theorem joinNL_splitNL (cs : List Char) : joinNL (splitNL cs) = cs := by
  induction cs with
  | nil => rfl
  | cons c cs ih =>
      by_cases hc : c = '\n'
      · subst hc
        rw [splitNL, if_pos rfl,
            joinNL_cons_ne_nil [] (splitNL cs) (splitNL_ne_nil cs), ih]
        rfl
      · rw [splitNL, if_neg hc]
        cases hs : splitNL cs with
        | nil => exact absurd hs (splitNL_ne_nil cs)
        | cons l ls =>
            rw [hs] at ih
            show joinNL ((c :: l) :: ls) = c :: cs
            cases ls with
            | nil =>
                simp only [joinNL] at ih ⊢
                rw [ih]
            | cons l' ls' =>
                rw [joinNL_cons_ne_nil (c :: l) (l' :: ls') (by simp)]
                rw [joinNL_cons_ne_nil l (l' :: ls') (by simp)] at ih
                rw [List.cons_append, ih]

theorem mem_splitNL_noNL (cs : List Char) :
    ∀ l ∈ splitNL cs, '\n' ∉ l := by
  induction cs with
  | nil => intro l hl; simp [splitNL] at hl; simp [hl]
  | cons c cs ih =>
      intro l hl
      rw [splitNL] at hl
      by_cases hc : c = '\n'
      · rw [if_pos hc] at hl
        rcases List.mem_cons.mp hl with h | h
        · subst h; simp
        · exact ih l h
      · rw [if_neg hc] at hl
        cases hs : splitNL cs with
        | nil => exact absurd hs (splitNL_ne_nil cs)
        | cons l' ls' =>
            rw [hs] at hl
            rcases List.mem_cons.mp hl with h | h
            · subst h
              intro hmem
              rcases List.mem_cons.mp hmem with h1 | h1
              · exact hc h1.symm
              · exact ih l' (by rw [hs]; exact List.mem_cons_self l' ls') h1
            · exact ih l (by rw [hs]; exact List.mem_cons_of_mem l' h)

theorem splitNL_of_noNL (l : List Char) (h : '\n' ∉ l) : splitNL l = [l] := by
  induction l with
  | nil => rfl
  | cons c cs ih =>
      have hc : ¬ c = '\n' := fun hcc => h (by simp [hcc])
      have hcs : '\n' ∉ cs := fun hmem => h (by simp [hmem])
      rw [splitNL, if_neg hc, ih hcs]

theorem splitNL_append (l : List Char) (cs : List Char) (h : '\n' ∉ l) :
    splitNL (l ++ '\n' :: cs) = l :: splitNL cs := by
  induction l with
  | nil => simp [splitNL]
  | cons c l ih =>
      have hc : ¬ c = '\n' := fun hcc => h (by simp [hcc])
      have hl : '\n' ∉ l := fun hmem => h (by simp [hmem])
      rw [List.cons_append, splitNL, if_neg hc, ih hl]

theorem splitNL_joinNL (lss : List (List Char)) (hne : lss ≠ [])
    (h : ∀ l ∈ lss, '\n' ∉ l) : splitNL (joinNL lss) = lss := by
  induction lss with
  | nil => exact absurd rfl hne
  | cons l ls ih =>
      cases ls with
      | nil =>
          simp only [joinNL]
          exact splitNL_of_noNL l (h l (by simp))
      | cons l' ls' =>
          rw [joinNL_cons_ne_nil l (l' :: ls') (by simp)]
          rw [splitNL_append l _ (h l (by simp))]
          rw [ih (by simp) (fun x hx => h x (by simp [hx]))]

/-! ## The countdown scan preserves shape -/

theorem noNL_toggleLine (l : List Char) (h : '\n' ∉ l) :
    '\n' ∉ toggleLine l := by
  cases hp : parseTask l with
  | none => rw [toggleLine, hp]; exact h
  | some v =>
      obtain ⟨ws, c, tail⟩ := v
      obtain ⟨hl, -, -⟩ := parseTask_inv hp
      rw [toggleLine_eq hp]
      intro hmem
      apply h
      rw [hl]
      simp only [taskLine, List.mem_append, List.mem_cons] at hmem ⊢
      have hnt : toggleChar c ≠ '\n' := by
        unfold toggleChar
        split <;> simp
      rcases hmem with h1 | h1
      · exact Or.inl h1
      · rcases h1 with h2 | h2 | h2 | h2 | h2 | h2 | h2
        · exact absurd h2 (by simp)
        · exact absurd h2 (by simp)
        · exact absurd h2 (by simp)
        · exact absurd h2 (fun hh => hnt hh.symm)
        · exact absurd h2 (by simp)
        · exact absurd h2 (by simp)
        · exact Or.inr (by simp [h2])

theorem noNL_toggleGo (ls : List (List Char)) :
    (∀ l ∈ ls, '\n' ∉ l) → ∀ i, ∀ l ∈ toggleGo i ls, '\n' ∉ l := by
  induction ls with
  | nil => intro h i l hl; rw [toggleGo] at hl; simp at hl
  | cons l ls ih =>
      intro h i l' hl'
      have hhead : '\n' ∉ l := h l (List.mem_cons_self l ls)
      have htail : ∀ x ∈ ls, '\n' ∉ x :=
        fun x hx => h x (List.mem_cons_of_mem l hx)
      rw [toggleGo] at hl'
      cases hp : parseTask l with
      | some v =>
          rw [hp] at hl'
          by_cases hi : i = 0
          · rw [if_pos hi] at hl'
            rcases List.mem_cons.mp hl' with h1 | h1
            · subst h1; exact noNL_toggleLine l hhead
            · exact htail l' h1
          · rw [if_neg hi] at hl'
            rcases List.mem_cons.mp hl' with h1 | h1
            · subst h1; exact hhead
            · exact ih htail (i - 1) l' h1
      | none =>
          rw [hp] at hl'
          rcases List.mem_cons.mp hl' with h1 | h1
          · subst h1; exact hhead
          · exact ih htail i l' h1

theorem toggleGo_ne_nil (i : Nat) (ls : List (List Char)) (h : ls ≠ []) :
    toggleGo i ls ≠ [] := by
  cases ls with
  | nil => exact absurd rfl h
  | cons l ls =>
      rw [toggleGo]
      cases hp : parseTask l with
      | some v =>
          show (if i = 0 then toggleLine l :: ls
                else l :: toggleGo (i - 1) ls) ≠ []
          by_cases hi : i = 0
          · rw [if_pos hi]; simp
          · rw [if_neg hi]; simp
      | none => simp

/-! ## Unfolding helpers for the scan -/

theorem taskMarkersLines_cons_some {l ws tail : List Char} {c : Char}
    (hp : parseTask l = some (ws, c, tail)) (ls : List (List Char)) :
    taskMarkersLines (l :: ls) = c :: taskMarkersLines ls := by
  rw [taskMarkersLines, hp]

theorem taskMarkersLines_cons_none {l : List Char}
    (hp : parseTask l = none) (ls : List (List Char)) :
    taskMarkersLines (l :: ls) = taskMarkersLines ls := by
  rw [taskMarkersLines, hp]

theorem toggleGo_cons_some_zero {l : List Char}
    {v : List Char × Char × List Char} (hp : parseTask l = some v)
    (ls : List (List Char)) :
    toggleGo 0 (l :: ls) = toggleLine l :: ls := by
  rw [toggleGo, hp, if_pos rfl]

theorem toggleGo_cons_some_pos {l : List Char}
    {v : List Char × Char × List Char} (hp : parseTask l = some v)
    (ls : List (List Char)) (i : Nat) (hi : ¬ i = 0) :
    toggleGo i (l :: ls) = l :: toggleGo (i - 1) ls := by
  rw [toggleGo, hp, if_neg hi]

theorem toggleGo_cons_none {l : List Char} (hp : parseTask l = none)
    (ls : List (List Char)) (i : Nat) :
    toggleGo i (l :: ls) = l :: toggleGo i ls := by
  rw [toggleGo, hp]

/-! ## Out-of-range toggles are no-ops -/

theorem toggleGo_of_count_le (ls : List (List Char)) :
    ∀ i, (taskMarkersLines ls).length ≤ i → toggleGo i ls = ls := by
  induction ls with
  | nil => intro i _; rfl
  | cons l ls ih =>
      intro i hi
      cases hp : parseTask l with
      | some v =>
          obtain ⟨ws, c, tail⟩ := v
          rw [taskMarkersLines_cons_some hp ls, List.length_cons] at hi
          have h0 : ¬ i = 0 := by omega
          rw [toggleGo_cons_some_pos hp ls i h0, ih (i - 1) (by omega)]
      | none =>
          rw [taskMarkersLines_cons_none hp ls] at hi
          rw [toggleGo_cons_none hp ls i, ih i hi]

/-! ## The toggle scan is an involution away from uppercase markers -/

theorem toggleGo_involution (ls : List (List Char)) :
    ∀ i, (taskMarkersLines ls).getD i ' ' ≠ 'X' →
      toggleGo i (toggleGo i ls) = ls := by
  induction ls with
  | nil => intro i _; rfl
  | cons l ls ih =>
      intro i hX
      cases hp : parseTask l with
      | some v =>
          obtain ⟨ws, c, tail⟩ := v
          by_cases hi : i = 0
          · subst hi
            rw [taskMarkersLines_cons_some hp ls, List.getD_cons_zero] at hX
            obtain ⟨hl, hws, hm⟩ := parseTask_inv hp
            have hpt : parseTask (toggleLine l) = some (ws, toggleChar c, tail) :=
              parseTask_toggleLine hp
            rw [toggleGo_cons_some_zero hp ls,
                toggleGo_cons_some_zero hpt ls,
                toggleLine_eq hpt, toggleChar_toggleChar hm hX, ← hl]
          · obtain ⟨k, rfl⟩ : ∃ k, i = k + 1 := ⟨i - 1, by omega⟩
            rw [taskMarkersLines_cons_some hp ls, List.getD_cons_succ] at hX
            rw [toggleGo_cons_some_pos hp ls (k + 1) hi,
                toggleGo_cons_some_pos hp (toggleGo (k + 1 - 1) ls) (k + 1) hi]
            simp only [Nat.add_sub_cancel]
            rw [ih k hX]
      | none =>
          rw [taskMarkersLines_cons_none hp ls] at hX
          rw [toggleGo_cons_none hp ls i,
              toggleGo_cons_none hp (toggleGo i ls) i, ih i hX]

/-! ## String-level consequences -/

theorem data_mk (cs : List Char) : (String.mk cs).data = cs := rfl

theorem mk_data (s : String) : String.mk s.data = s := rfl

theorem toggleTaskListItem_id_of_go (content : String) (i : Nat)
    (h : toggleGo i (splitNL content.data) = splitNL content.data) :
    toggleTaskListItem content i = content := by
  rw [toggleTaskListItem_eq_go, h, joinNL_splitNL, mk_data]

theorem toggleTaskListItem_out_of_range (content : String) (i : Nat)
    (h : (taskMarkers content).length ≤ i) :
    toggleTaskListItem content i = content :=
  toggleTaskListItem_id_of_go content i
    (toggleGo_of_count_le (splitNL content.data) i h)

theorem toggleTaskListItem_involution (content : String) (i : Nat)
    (hX : (taskMarkers content).getD i ' ' ≠ 'X') :
    toggleTaskListItem (toggleTaskListItem content i) i = content := by
  rw [toggleTaskListItem_eq_go content i, toggleTaskListItem_eq_go, data_mk]
  rw [splitNL_joinNL (toggleGo i (splitNL content.data))
        (toggleGo_ne_nil i (splitNL content.data) (splitNL_ne_nil content.data))
        (noNL_toggleGo (splitNL content.data)
          (mem_splitNL_noNL content.data) i)]
  rw [toggleGo_involution (splitNL content.data) i hX, joinNL_splitNL, mk_data]

/-! ## Structural description of an in-range toggle -/

theorem toggleGo_structure (ls : List (List Char)) :
    ∀ i, i < (taskMarkersLines ls).length →
      ∃ pre l post ws c tail,
        ls = pre ++ l :: post ∧
        (taskMarkersLines pre).length = i ∧
        parseTask l = some (ws, c, tail) ∧
        l = taskLine ws c tail ∧
        toggleGo i ls = pre ++ taskLine ws (toggleChar c) tail :: post := by
  induction ls with
  | nil => intro i hi; simp [taskMarkersLines] at hi
  | cons l ls ih =>
      intro i hi
      cases hp : parseTask l with
      | some v =>
          obtain ⟨ws, c, tail⟩ := v
          by_cases hi0 : i = 0
          · subst hi0
            obtain ⟨hl, -, -⟩ := parseTask_inv hp
            exact ⟨[], l, ls, ws, c, tail, by simp, rfl, hp, hl,
              by rw [toggleGo_cons_some_zero hp ls, toggleLine_eq hp]; rfl⟩
          · rw [taskMarkersLines_cons_some hp ls, List.length_cons] at hi
            obtain ⟨pre, l', post, ws', c', tail', h1, h2, h3, h4, h5⟩ :=
              ih (i - 1) (by omega)
            refine ⟨l :: pre, l', post, ws', c', tail', by rw [List.cons_append, h1],
              ?_, h3, h4, ?_⟩
            · rw [taskMarkersLines_cons_some hp pre, List.length_cons, h2]
              omega
            · rw [toggleGo_cons_some_pos hp ls i hi0, h5, List.cons_append]
      | none =>
          rw [taskMarkersLines_cons_none hp ls] at hi
          obtain ⟨pre, l', post, ws', c', tail', h1, h2, h3, h4, h5⟩ := ih i hi
          refine ⟨l :: pre, l', post, ws', c', tail', by rw [List.cons_append, h1],
            ?_, h3, h4, ?_⟩
          · rw [taskMarkersLines_cons_none hp pre, h2]
          · rw [toggleGo_cons_none hp ls i, h5, List.cons_append]

/-! ## Reducer helper lemmas -/

theorem reducer_toggle_noop (st : DocState) (i now : Nat)
    (h : toggleTaskListItem st.current.content i = st.current.content) :
    reducer st (Action.toggleTaskListItem i) now =
      { st with forceUpdate := false } := by
  simp only [reducer]
  rw [if_pos h]

/-! ## Claim C1 -/

/-- C1, counterexample to the claim as stated: the initial default document
has no prior local modification, yet processing an update-template action
(the repository's own test: template `"letter"` on the default document)
yields a current document whose `last_modified_locally` is still null — not
the non-null value the claim requires. -/
theorem c1_counterexample :
    initialState.current.last_modified_locally = none ∧
    (reducer initialState (Action.updateTemplate "letter")
        0).current.last_modified_locally = none := by
  constructor <;> rfl

/-- C1 (amended): for every document with no prior local modification,
processing an update-content or an update-template action through the
reducer yields a new `Document` reference (reference-unequal to the prior
one); `last_modified_locally` becomes non-null exactly when the resulting
document's content differs from the default content — in particular a
template update on a document still carrying the default content leaves the
marker null. -/
theorem c1_update_modification_marker (st : DocState) (now : Nat)
    (content template : String)
    (h : st.current.last_modified_locally = none) :
    (reducer st (Action.updateContent content) now).current.ref ≠
        st.current.ref ∧
    (reducer st (Action.updateTemplate template) now).current.ref ≠
        st.current.ref ∧
    (content ≠ defaultContent →
      (reducer st (Action.updateContent content)
          now).current.last_modified_locally = some now) ∧
    (content = defaultContent →
      (reducer st (Action.updateContent content)
          now).current.last_modified_locally = none) ∧
    (st.current.content ≠ defaultContent →
      (reducer st (Action.updateTemplate template)
          now).current.last_modified_locally = some now) ∧
    (st.current.content = defaultContent →
      (reducer st (Action.updateTemplate template)
          now).current.last_modified_locally = none) := by
  refine ⟨?_, ?_, ?_, ?_, ?_, ?_⟩
  · show (setDocContent st.current content now).ref ≠ st.current.ref
    simp only [setDocContent]
    split_ifs <;> simp
  · show (setDocTemplate st.current template now).ref ≠ st.current.ref
    simp only [setDocTemplate]
    split_ifs <;> simp
  · intro hc
    show (setDocContent st.current content now).last_modified_locally =
      some now
    simp only [setDocContent]
    rw [if_neg hc]
  · intro hc
    show (setDocContent st.current content now).last_modified_locally = none
    simp only [setDocContent]
    rw [if_pos hc]
    exact h
  · intro hc
    show (setDocTemplate st.current template now).last_modified_locally =
      some now
    simp only [setDocTemplate]
    rw [if_neg hc]
  · intro hc
    show (setDocTemplate st.current template now).last_modified_locally =
      none
    simp only [setDocTemplate]
    rw [if_pos hc]
    exact h

/-- C1 witness: updating the content of the fresh initial state to the
non-default content `"bar"` at time 5 marks the document as locally
modified. -/
theorem c1_update_modification_marker_witness :
    (reducer initialState (Action.updateContent "bar")
        5).current.last_modified_locally = some 5 :=
  (c1_update_modification_marker initialState 5 "bar" "letter"
      rfl).2.2.1 (by decide)

/-! ## Claim C2 -/

/-- C2, counterexample to the claim as stated: a local-persist action (an
action kind the reducer does not recognize) dispatched right after a
force-update leaves `forceUpdate` at `true`, while the claim demands that
every unrecognized action yield `forceUpdate = false`. -/
theorem c2_counterexample :
    (reducer
        (reducer initialState
          (Action.forceUpdateCurrentDocument defaultDocument) 0)
        Action.localPersist 0).forceUpdate = true := rfl

/-- C2 (amended): for every state and every action the reducer recognizes,
the produced state has `forceUpdate = true` exactly when the action is
force-update-current-document; an action the reducer does not recognize
passes the whole state through unchanged, so it preserves the prior
`forceUpdate` value instead of resetting it. -/
theorem c2_force_update_flag (st : DocState) (a : Action) (now : Nat) :
    (a.recognized = true →
      ((reducer st a now).forceUpdate = true ↔ a.isForceUpdate = true)) ∧
    (a.recognized = false → reducer st a now = st) := by
  cases a with
  | loadDefault =>
      exact ⟨fun _ => by simp [reducer, Action.isForceUpdate],
        fun h => by simp [Action.recognized] at h⟩
  | loadSuccess d s =>
      exact ⟨fun _ => by simp [reducer, Action.isForceUpdate],
        fun h => by simp [Action.recognized] at h⟩
  | updateContent c =>
      exact ⟨fun _ => by simp [reducer, Action.isForceUpdate],
        fun h => by simp [Action.recognized] at h⟩
  | updateTemplate t =>
      exact ⟨fun _ => by simp [reducer, Action.isForceUpdate],
        fun h => by simp [Action.recognized] at h⟩
  | toggleTaskListItem i =>
      refine ⟨fun _ => ?_, fun h => by simp [Action.recognized] at h⟩
      simp only [reducer, Action.isForceUpdate]
      split <;> simp
  | forceUpdateCurrentDocument d =>
      exact ⟨fun _ => by simp [reducer, Action.isForceUpdate],
        fun h => by simp [Action.recognized] at h⟩
  | updateCurrentDocument d =>
      exact ⟨fun _ => by simp [reducer, Action.isForceUpdate],
        fun h => by simp [Action.recognized] at h⟩
  | localPersist =>
      exact ⟨fun h => by simp [Action.recognized] at h, fun _ => rfl⟩
  | notify l m =>
      exact ⟨fun h => by simp [Action.recognized] at h, fun _ => rfl⟩
  | synchronize =>
      exact ⟨fun h => by simp [Action.recognized] at h, fun _ => rfl⟩
  | unknown =>
      exact ⟨fun h => by simp [Action.recognized] at h, fun _ => rfl⟩

/-- C2 witness: at the initial state, a recognized load-default action
yields `forceUpdate = false` (the iff against a non-force action), and the
unrecognized action passes the state through unchanged. -/
theorem c2_force_update_flag_witness :
    ((reducer initialState Action.loadDefault 3).forceUpdate = true ↔
      Action.loadDefault.isForceUpdate = true) ∧
    reducer initialState Action.unknown 3 = initialState :=
  ⟨(c2_force_update_flag initialState Action.loadDefault 3).1 rfl,
   (c2_force_update_flag initialState Action.unknown 3).2 rfl⟩

/-! ## Claim C3 -/

/-- C3, counterexample to the claim as stated: toggling index 0 of
`"- [X] a"` twice yields `"- [x] a"` — the uppercase checked marker is
normalized to lowercase, so the double toggle is not the identity there. -/
theorem c3_counterexample :
    toggleTaskListItem (toggleTaskListItem "- [X] a" 0) 0 = "- [x] a" ∧
    toggleTaskListItem (toggleTaskListItem "- [X] a" 0) 0 ≠ "- [X] a" := by
  constructor <;> decide

/-- C3 (amended): for every text `T` and index `i`, as long as the targeted
marker is not the uppercase form `'X'` (in particular whenever it is `' '`
or `'x'`, or the index is out of range), toggling the same index twice
returns exactly the original text. -/
theorem c3_toggle_involution (T : String) (i : Nat)
    (hX : (taskMarkers T).getD i ' ' ≠ 'X') :
    toggleTaskListItem (toggleTaskListItem T i) i = T :=
  toggleTaskListItem_involution T i hX

/-- C3 witness: double-toggling index 1 (a lowercase checked item) of a
two-item list restores the original text. -/
theorem c3_toggle_involution_witness :
    toggleTaskListItem (toggleTaskListItem "- [ ] a\n- [x] b" 1) 1 =
      "- [ ] a\n- [x] b" :=
  c3_toggle_involution "- [ ] a\n- [x] b" 1 (by decide)

/-! ## Claim C4 -/

/-- C4: for every markdown text and every in-range index `i`, the toggle
algorithm splits the text into lines, finds the unique line preceded by
exactly `i` task-item lines (indices assigned purely in top-to-bottom order;
indentation is stripped whitespace, so nesting depth is irrelevant), and
rewrites the text with only that line changed — same indentation, same tail,
only the marker character flipped — every other line reproduced
byte-identically; and on the spec's example content, toggling index 6
changes only the final `- [x] g` line to `- [ ] g`. -/
theorem c4_toggle_single_line :
    (∀ (content : String) (i : Nat), i < (taskMarkers content).length →
      ∃ pre l post ws tail c,
        splitNL content.data = pre ++ l :: post ∧
        (taskMarkersLines pre).length = i ∧
        (∀ x ∈ ws, isWS x = true) ∧
        isMarker c = true ∧
        l = taskLine ws c tail ∧
        toggleTaskListItem content i =
          String.mk (joinNL (pre ++ taskLine ws (toggleChar c) tail :: post))) ∧
    toggleTaskListItem
        "Hello:\n\n- [ ] a\n  - [ ] b\n  - [x] c\n  - [ ] d\n\n- [ ] e\n  - [ ] f\n  - [x] g"
        6 =
      "Hello:\n\n- [ ] a\n  - [ ] b\n  - [x] c\n  - [ ] d\n\n- [ ] e\n  - [ ] f\n  - [ ] g" := by
  constructor
  · intro content i hi
    obtain ⟨pre, l, post, ws, c, tail, h1, h2, h3, h4, h5⟩ :=
      toggleGo_structure (splitNL content.data) i hi
    obtain ⟨-, hws, hm⟩ := parseTask_inv h3
    exact ⟨pre, l, post, ws, tail, c, h1, h2, hws, hm, h4,
      by rw [toggleTaskListItem_eq_go, h5]⟩
  · decide

/-- C4 witness: on the one-item content `"- [ ] a"`, index 0 is in range and
the structural description holds. -/
theorem c4_toggle_single_line_witness :
    0 < (taskMarkers "- [ ] a").length ∧
    (∃ pre l post ws tail c,
        splitNL ("- [ ] a" : String).data = pre ++ l :: post ∧
        (taskMarkersLines pre).length = 0 ∧
        (∀ x ∈ ws, isWS x = true) ∧
        isMarker c = true ∧
        l = taskLine ws c tail ∧
        toggleTaskListItem "- [ ] a" 0 =
          String.mk
            (joinNL (pre ++ taskLine ws (toggleChar c) tail :: post))) :=
  ⟨by decide, c4_toggle_single_line.1 "- [ ] a" 0 (by decide)⟩

/-! ## Claim C5 -/

/-- C5: dispatching `updateContent`/`updateTemplate` on a state whose
`secret` is null emits exactly one load-success-style full replacement
carrying a fresh document with the requested content (resp. template) baked
in, and no incremental update action; on a state with a non-null secret it
emits exactly the incremental update action followed by the local-persist
signal, in that order. -/
theorem c5_dispatch_branches (st : DocState)
    (content template freshSecret : String) :
    (st.secret = none →
      (∃ d, updateContentDispatch st content freshSecret =
          [Action.loadSuccess d freshSecret] ∧ d.content = content) ∧
      (∃ d, updateTemplateDispatch st template freshSecret =
          [Action.loadSuccess d freshSecret] ∧ d.template = template)) ∧
    (st.secret ≠ none →
      updateContentDispatch st content freshSecret =
        [Action.updateContent content, Action.localPersist] ∧
      updateTemplateDispatch st template freshSecret =
        [Action.updateTemplate template, Action.localPersist]) := by
  constructor
  · intro h
    constructor
    · exact ⟨_, by rw [updateContentDispatch, if_pos h], rfl⟩
    · exact ⟨_, by rw [updateTemplateDispatch, if_pos h], rfl⟩
  · intro h
    exact ⟨by rw [updateContentDispatch, if_neg h],
           by rw [updateTemplateDispatch, if_neg h]⟩

/-- C5 witness: the new-document branch at the initial state (null secret)
and the known-document branch at a state with secret `"k"`. -/
theorem c5_dispatch_branches_witness :
    ((∃ d, updateContentDispatch initialState "Hello" "s1" =
        [Action.loadSuccess d "s1"] ∧ d.content = "Hello") ∧
     (∃ d, updateTemplateDispatch initialState "letter" "s1" =
        [Action.loadSuccess d "s1"] ∧ d.template = "letter")) ∧
    (updateContentDispatch { initialState with secret := some "k" }
        "Hello" "s1" =
      [Action.updateContent "Hello", Action.localPersist] ∧
     updateTemplateDispatch { initialState with secret := some "k" }
        "letter" "s1" =
      [Action.updateTemplate "letter", Action.localPersist]) :=
  ⟨(c5_dispatch_branches initialState "Hello" "letter" "s1").1 rfl,
   (c5_dispatch_branches { initialState with secret := some "k" }
      "Hello" "letter" "s1").2 (by simp)⟩

/-! ## Claim C6 -/

/-- C6: on every targeted task-item line, toggling maps both checked markers
`'x'` and `'X'` to the single unchecked marker `' '`, and maps the unchecked
marker `' '` to the lowercase checked marker `'x'` (never uppercase); the
three concrete single-item contents behave accordingly. -/
theorem c6_marker_mapping :
    (∀ (line ws tail : List Char) (c : Char),
      parseTask line = some (ws, c, tail) →
        parseTask (toggleLine line) =
          some (ws, if c = ' ' then 'x' else ' ', tail)) ∧
    toggleTaskListItem "- [x] a" 0 = "- [ ] a" ∧
    toggleTaskListItem "- [X] a" 0 = "- [ ] a" ∧
    toggleTaskListItem "- [ ] a" 0 = "- [x] a" := by
  refine ⟨?_, by decide, by decide, by decide⟩
  intro line ws tail c h
  exact parseTask_toggleLine h

/-- C6 witness: the unstripped single task line `- [x] a` parses with marker
`'x'` and toggles to the unchecked marker. -/
theorem c6_marker_mapping_witness :
    parseTask ("- [x] a".data) = some ([], 'x', "a".data) ∧
    parseTask (toggleLine ("- [x] a".data)) =
      some ([], if 'x' = ' ' then 'x' else ' ', "a".data) :=
  ⟨by decide, c6_marker_mapping.1 ("- [x] a".data) [] ("a".data) 'x' (by decide)⟩

/-! ## Claim C7 -/

/-- C7: for every state and every index at least the number of task-item
lines of the current content (in particular for content with no task items),
the toggle returns the content exactly, and the reducer leaves the current
document — including `last_modified_locally` and its reference — completely
untouched. -/
theorem c7_out_of_range_noop (st : DocState) (i now : Nat)
    (h : (taskMarkers st.current.content).length ≤ i) :
    toggleTaskListItem st.current.content i = st.current.content ∧
    (reducer st (Action.toggleTaskListItem i) now).current = st.current := by
  have heq := toggleTaskListItem_out_of_range st.current.content i h
  exact ⟨heq, by rw [reducer_toggle_noop st i now heq]⟩

/-- C7 witness: the initial default content has no task items, so toggling
index 123 is a no-op and the reducer keeps the document untouched. -/
theorem c7_out_of_range_noop_witness :
    (taskMarkers initialState.current.content).length ≤ 123 ∧
    (toggleTaskListItem initialState.current.content 123 =
        initialState.current.content ∧
      (reducer initialState (Action.toggleTaskListItem 123) 0).current =
        initialState.current) :=
  ⟨by decide, c7_out_of_range_noop initialState 123 0 (by decide)⟩

/-! ## Claim C8 -/

/-- C8: a line whose stripped content matches the bracket pattern but is not
preceded by a `- ` bullet never matches the task-item pattern, hence is
never counted toward the index and never mutated by the scan at any
requested index; a document whose content is the bare `"[ ] foo"` is left —
content, marker and reference — unchanged by any toggle. -/
theorem c8_no_bullet_skipped :
    (∀ (line rest : List Char) (c : Char), isMarker c = true →
      line.dropWhile isWS = '[' :: c :: ']' :: ' ' :: rest →
      parseTask line = none) ∧
    (∀ (line : List Char), parseTask line = none →
      (∀ ls, taskMarkersLines (line :: ls) = taskMarkersLines ls) ∧
      (∀ ls i, toggleGo i (line :: ls) = line :: toggleGo i ls)) ∧
    (∀ (st : DocState) (i now : Nat), st.current.content = "[ ] foo" →
      toggleTaskListItem st.current.content i = st.current.content ∧
      (reducer st (Action.toggleTaskListItem i) now).current = st.current) := by
  refine ⟨?_, ?_, ?_⟩
  · intro line rest c hm hdrop
    cases hp : parseTask line with
    | none => rfl
    | some v =>
        obtain ⟨ws, c', tail⟩ := v
        obtain ⟨hl, hws, -⟩ := parseTask_inv hp
        rw [hl, dropWhile_taskLine ws c' tail hws] at hdrop
        injection hdrop with h1 _
        exact absurd h1 (by decide)
  · intro line hp
    exact ⟨fun ls => taskMarkersLines_cons_none hp ls,
           fun ls i => toggleGo_cons_none hp ls i⟩
  · intro st i now hc
    have hlen : (taskMarkers st.current.content).length ≤ i := by
      rw [hc]
      have h0 : (taskMarkers "[ ] foo").length = 0 := by decide
      rw [h0]
      exact Nat.zero_le i
    have heq := toggleTaskListItem_out_of_range st.current.content i hlen
    exact ⟨heq, by rw [reducer_toggle_noop st i now heq]⟩

/-- C8 witness: the bare line `[ ] foo` (no bullet) does not parse as a task
item, and a state holding exactly that content is untouched by a toggle at
index 0. -/
theorem c8_no_bullet_skipped_witness :
    parseTask ("[ ] foo".data) = none ∧
    (toggleTaskListItem
        ({ initialState with
            current := { initialState.current with content := "[ ] foo" }
          } : DocState).current.content 0 = "[ ] foo" ∧
      (reducer
          { initialState with
              current := { initialState.current with content := "[ ] foo" } }
          (Action.toggleTaskListItem 0) 7).current =
        { initialState.current with content := "[ ] foo" }) :=
  ⟨c8_no_bullet_skipped.1 ("[ ] foo".data) ("foo".data) ' ' (by decide)
      (by decide),
   (c8_no_bullet_skipped.2.2
      { initialState with
          current := { initialState.current with content := "[ ] foo" } }
      0 7 rfl)⟩

/-! ## Claim C9 -/

/-- C9: each of `notFound`, `decryptionFailed` and `serverUnreachable` emits
exactly two actions, in order: first a user-facing notification with level
`"error"`, then a load-default action. -/
theorem c9_failure_recovery :
    notFound.length = 2 ∧
    decryptionFailed.length = 2 ∧
    serverUnreachable.length = 2 ∧
    (∃ m, notFound = [Action.notify "error" m, Action.loadDefault]) ∧
    (∃ m, decryptionFailed = [Action.notify "error" m, Action.loadDefault]) ∧
    (∃ m, serverUnreachable = [Action.notify "error" m, Action.loadDefault]) :=
  ⟨rfl, rfl, rfl, ⟨_, rfl⟩, ⟨_, rfl⟩, ⟨_, rfl⟩⟩

/-! ## Claim C10 -/

/-- C10: dispatching update-template on the initial default state produces a
new `Document` reference whose template equals the requested one while
`last_modified_locally` stays null (the still-default content means the
document is not marked locally dirty). -/
theorem c10_default_template_update (template : String) (now : Nat) :
    (reducer initialState (Action.updateTemplate template)
        now).current.template = template ∧
    (reducer initialState (Action.updateTemplate template)
        now).current.ref ≠ initialState.current.ref ∧
    (reducer initialState (Action.updateTemplate template)
        now).current.last_modified_locally = none := by
  refine ⟨?_, ?_, ?_⟩
  · show (setDocTemplate initialState.current template now).template = template
    simp only [setDocTemplate]
    rw [if_pos (by rfl)]
  · show (setDocTemplate initialState.current template now).ref ≠
      initialState.current.ref
    simp only [setDocTemplate]
    rw [if_pos (by rfl)]
    simp
  · show (setDocTemplate initialState.current template
        now).last_modified_locally = none
    simp only [setDocTemplate]
    rw [if_pos (by rfl)]
    rfl

end Monod
